import Mathlib

/-!
Verification of the Rise testnet on-chain data pipeline.

This file gives a shallow embedding, in Lean, of the behaviourally relevant
parts of three Python modules:

* the HTTP request/retry layer of the explorer API client
  (RiseExplorerClient._make_request and RiseExplorerClient.get_balance_multi),
* the pagination-accumulation loops of the data extractor
  (DataExtractor.extract_account_data, extract_token_transfers,
  extract_token_holders),
* the block-range iteration (DataExtractor.extract_block_range),
* CSV field-name computation and row rendering (DataExtractor._save_csv),
* the ABI-handling branch of DataExtractor.extract_contract_data.

Network effects are abstracted as explicit functions: the server is a function
from a page number (or attempt index, or block number) to the response it
yields, and side effects such as sleeps, issued requests and log messages are
returned as explicit traces.
-/

namespace RisePipeline

/-- The response envelope of the explorer API: a JSON body with a `status`
field ("1" success, "0" failure), a `message` and a `result` payload whose
shape depends on the endpoint. -/
structure ApiResponse (ρ : Type) where
  status : String
  message : String
  result : ρ
deriving DecidableEq

/-- Log events emitted by `_make_request`: the warning for an API-level
error body (status "0") and the warning for a failed attempt (1-based). -/
inductive LogEvent where
  | apiError
  | attemptFailed (n : Nat)
deriving DecidableEq

/-- How a call to `_make_request` ends: a decoded response is returned, the
last attempt's transport error is re-raised, or the defensive fallback
RequestException("Max retries exceeded") fires. -/
inductive ReqOutcome (ε ρ : Type) where
  | ok (data : ApiResponse ρ)
  | raised (e : ε)
  | maxRetriesExceeded
deriving DecidableEq

/-- Observable behaviour of one `_make_request` call: its outcome, the
durations passed to time.sleep in order, the 0-based attempt indices at
which an HTTP request was actually issued, and the warnings logged. -/
structure ReqTrace (ε ρ : Type) where
  outcome : ReqOutcome ε ρ
  sleeps : List Int
  tried : List Nat
  logs : List LogEvent
deriving DecidableEq

/-- The body of the `for attempt in range(self.config.max_retries)` loop of
`RiseExplorerClient._make_request`, starting at attempt index `attempt`.
`attempts i` is the outcome of issuing the HTTP request on attempt `i`:
`Except.ok data` when the exchange succeeds at the HTTP level and decodes
to `data`, `Except.error e` when it raises a transport error. -/
def makeRequestGo (attempts : Nat → Except ε (ApiResponse ρ))
    (max_retries retry_delay : Int) (attempt : Nat) : ReqTrace ε ρ :=
  if h : (attempt : Int) < max_retries then
    match attempts attempt with
    | Except.ok data =>
        { outcome := ReqOutcome.ok data, sleeps := [], tried := [attempt],
          logs := if data.status = "0" then [LogEvent.apiError] else [] }
    | Except.error e =>
        if (attempt : Int) < max_retries - 1 then
          { outcome := (makeRequestGo attempts max_retries retry_delay (attempt + 1)).outcome,
            sleeps := retry_delay * ((attempt : Int) + 1) ::
              (makeRequestGo attempts max_retries retry_delay (attempt + 1)).sleeps,
            tried := attempt :: (makeRequestGo attempts max_retries retry_delay (attempt + 1)).tried,
            logs := LogEvent.attemptFailed (attempt + 1) ::
              (makeRequestGo attempts max_retries retry_delay (attempt + 1)).logs }
        else
          { outcome := ReqOutcome.raised e, sleeps := [], tried := [attempt],
            logs := [LogEvent.attemptFailed (attempt + 1)] }
  else
    { outcome := ReqOutcome.maxRetriesExceeded, sleeps := [], tried := [], logs := [] }
termination_by (max_retries - (attempt : Int)).toNat
decreasing_by all_goals omega

/-- Model of `RiseExplorerClient._make_request`: runs the attempt loop from attempt 0;
if the loop exhausts without returning, the trailing
`raise requests.exceptions.RequestException("Max retries exceeded")` fires. -/
def _make_request (attempts : Nat → Except ε (ApiResponse ρ))
    (max_retries retry_delay : Int) : ReqTrace ε ρ :=
  makeRequestGo attempts max_retries retry_delay 0

theorem makeRequestGo_ok (attempts : Nat → Except ε (ApiResponse ρ))
    (max_retries retry_delay : Int) (a : Nat) (data : ApiResponse ρ)
    (h : (a : Int) < max_retries) (ha : attempts a = Except.ok data) :
    makeRequestGo attempts max_retries retry_delay a =
      { outcome := ReqOutcome.ok data, sleeps := [], tried := [a],
        logs := if data.status = "0" then [LogEvent.apiError] else [] } := by
  unfold makeRequestGo
  rw [dif_pos h, ha]

theorem makeRequestGo_error_retry (attempts : Nat → Except ε (ApiResponse ρ))
    (max_retries retry_delay : Int) (a : Nat) (e : ε)
    (h : (a : Int) < max_retries - 1) (ha : attempts a = Except.error e) :
    makeRequestGo attempts max_retries retry_delay a =
      { outcome := (makeRequestGo attempts max_retries retry_delay (a + 1)).outcome,
        sleeps := retry_delay * ((a : Int) + 1) ::
          (makeRequestGo attempts max_retries retry_delay (a + 1)).sleeps,
        tried := a :: (makeRequestGo attempts max_retries retry_delay (a + 1)).tried,
        logs := LogEvent.attemptFailed (a + 1) ::
          (makeRequestGo attempts max_retries retry_delay (a + 1)).logs } := by
  have h' : (a : Int) < max_retries := by omega
  conv_lhs => rw [makeRequestGo]
  rw [dif_pos h', ha]
  simp only [if_pos h]

theorem makeRequestGo_error_last (attempts : Nat → Except ε (ApiResponse ρ))
    (max_retries retry_delay : Int) (a : Nat) (e : ε)
    (h : (a : Int) < max_retries) (h2 : ¬ (a : Int) < max_retries - 1)
    (ha : attempts a = Except.error e) :
    makeRequestGo attempts max_retries retry_delay a =
      { outcome := ReqOutcome.raised e, sleeps := [], tried := [a],
        logs := [LogEvent.attemptFailed (a + 1)] } := by
  unfold makeRequestGo
  rw [dif_pos h, ha]
  simp only [if_neg h2]

theorem makeRequestGo_stop (attempts : Nat → Except ε (ApiResponse ρ))
    (max_retries retry_delay : Int) (a : Nat)
    (h : ¬ (a : Int) < max_retries) :
    makeRequestGo attempts max_retries retry_delay a =
      { outcome := ReqOutcome.maxRetriesExceeded, sleeps := [], tried := [], logs := [] } := by
  unfold makeRequestGo
  rw [dif_neg h]

/-- The pagination-accumulation while-loop shared, with identical structure,
by `DataExtractor.extract_account_data` (transactions),
`DataExtractor.extract_token_transfers` and
`DataExtractor.extract_token_holders`:

    while len(acc) < cap:
        result = fetch(page)
        if result.get('status') == '1':
            records = result.get('result', [])
            if not records: break
            acc.extend(records); page += 1
        else: break

`fetch page` is the client call for the given page number (the page size and
the other query parameters are fixed for the whole loop and are absorbed
into `fetch`). Returns the accumulated records together with the list of
page numbers that were requested, in order. -/
def pagLoop (fetch : Nat → ApiResponse (List α)) (cap : Nat)
    (acc : List α) (page : Nat) : List α × List Nat :=
  if h : acc.length < cap then
    if (fetch page).status = "1" then
      if hres : (fetch page).result.isEmpty then
        (acc, [page])
      else
        ((pagLoop fetch cap (acc ++ (fetch page).result) (page + 1)).1,
          page :: (pagLoop fetch cap (acc ++ (fetch page).result) (page + 1)).2)
    else
      (acc, [page])
  else
    (acc, [])
termination_by cap - acc.length
decreasing_by all_goals
  (have hp := List.length_pos.mpr (List.isEmpty_eq_false.mp (Bool.eq_false_iff.mpr hres))
   simp only [List.length_append]; omega)

/-- The transaction-accumulation part of `DataExtractor.extract_account_data`:
page size `min(100, max_transactions)`, loop from page 1, then truncation
`all_transactions[:max_transactions]`. Result: the retained records and the
pages requested. -/
def extract_account_data (fetch : Nat → Nat → ApiResponse (List α))
    (max_transactions : Nat) : List α × List Nat :=
  ((pagLoop (fun page => fetch page (min 100 max_transactions)) max_transactions [] 1).1.take
      max_transactions,
    (pagLoop (fun page => fetch page (min 100 max_transactions)) max_transactions [] 1).2)

/-- The accumulation part of `DataExtractor.extract_token_transfers`:
fixed page size 100, loop from page 1, truncation to `max_transfers`. -/
def extract_token_transfers (fetch : Nat → Nat → ApiResponse (List α))
    (max_transfers : Nat) : List α × List Nat :=
  ((pagLoop (fun page => fetch page 100) max_transfers [] 1).1.take max_transfers,
    (pagLoop (fun page => fetch page 100) max_transfers [] 1).2)

/-- The holder-accumulation part of `DataExtractor.extract_token_holders`:
page size `min(100, max_holders)`, loop from page 1, truncation to
`max_holders`. -/
def extract_token_holders (fetch : Nat → Nat → ApiResponse (List α))
    (max_holders : Nat) : List α × List Nat :=
  ((pagLoop (fun page => fetch page (min 100 max_holders)) max_holders [] 1).1.take max_holders,
    (pagLoop (fun page => fetch page (min 100 max_holders)) max_holders [] 1).2)

theorem pagLoop_stop_cap (fetch : Nat → ApiResponse (List α)) (cap : Nat)
    (acc : List α) (page : Nat) (h : ¬ acc.length < cap) :
    pagLoop fetch cap acc page = (acc, []) := by
  unfold pagLoop
  rw [dif_neg h]

theorem pagLoop_stop_status (fetch : Nat → ApiResponse (List α)) (cap : Nat)
    (acc : List α) (page : Nat) (h : acc.length < cap)
    (hs : ¬ (fetch page).status = "1") :
    pagLoop fetch cap acc page = (acc, [page]) := by
  unfold pagLoop
  rw [dif_pos h, if_neg hs]

theorem pagLoop_stop_empty (fetch : Nat → ApiResponse (List α)) (cap : Nat)
    (acc : List α) (page : Nat) (h : acc.length < cap)
    (hs : (fetch page).status = "1") (hr : (fetch page).result = []) :
    pagLoop fetch cap acc page = (acc, [page]) := by
  have hb : (fetch page).result.isEmpty = true := by simp [hr]
  unfold pagLoop
  rw [dif_pos h, if_pos hs, dif_pos hb]

theorem pagLoop_step (fetch : Nat → ApiResponse (List α)) (cap : Nat)
    (acc : List α) (page : Nat) (h : acc.length < cap)
    (hs : (fetch page).status = "1") (hr : ¬ (fetch page).result = []) :
    pagLoop fetch cap acc page =
      ((pagLoop fetch cap (acc ++ (fetch page).result) (page + 1)).1,
        page :: (pagLoop fetch cap (acc ++ (fetch page).result) (page + 1)).2) := by
  have hb : ¬ (fetch page).result.isEmpty = true := by simp [hr]
  conv_lhs => rw [pagLoop]
  rw [dif_pos h, if_pos hs, dif_neg hb]

/-- The `for block_num in range(start_block, end_block + 1)` loop body of
`DataExtractor.extract_block_range`, over an explicit list of block numbers:
fetch each block's reward, append the `result` field when `status == '1'`,
silently skip the block otherwise. -/
def blockRangeLoop (fetch : Nat → ApiResponse ρ) : List Nat → List ρ
  | [] => []
  | b :: rest =>
      if (fetch b).status = "1" then (fetch b).result :: blockRangeLoop fetch rest
      else blockRangeLoop fetch rest

/-- Model of `DataExtractor.extract_block_range`: iterate the block numbers from
`start_block` through `end_block` inclusive (Python `range(start, end + 1)`)
and collect the successful blocks' `result` payloads in order. -/
def extract_block_range (fetch : Nat → ApiResponse ρ)
    (start_block end_block : Nat) : List ρ :=
  blockRangeLoop fetch (List.range' start_block (end_block + 1 - start_block))

/-- The field-name computation of `DataExtractor._save_csv`:

    keys = set()
    for record in data: keys.update(record.keys())

A record is modelled as an association list from column name to cell text. -/
def save_csv_keys (data : List (List (String × String))) : Finset String :=
  data.foldl (fun ks record => ks ∪ (record.map Prod.fst).toFinset) ∅

/-- The header row of `DataExtractor._save_csv`: `keys = sorted(keys)`. -/
def save_csv_fieldnames (data : List (List (String × String))) : List String :=
  (save_csv_keys data).sort (· ≤ ·)

/-- One CSV data row as produced by `csv.DictWriter` with the given
fieldnames: each cell is `rowdict.get(key, restval)` with the writer's
default `restval = ''`, so a record missing a column yields an empty cell. -/
def save_csv_row (fieldnames : List String) (record : List (String × String)) : List String :=
  fieldnames.map (fun k => ((record.lookup k).getD ""))

/-- The first element of the `result` list of a `getsourcecode` response:
the claims only concern its `SourceCode` and `ABI` text fields. -/
structure ContractInfo where
  SourceCode : String
  ABI : String

/-- The file-producing skeleton of `DataExtractor.extract_contract_data`,
modelling the returned `saved_files` dictionary by its keys in insertion
order. `parseJson` stands for `json.loads`: `none` models a raised
`json.JSONDecodeError`, which the source catches locally after writing the
full-data JSON and the source-code file, logging a warning and adding no
'abi' entry. -/
def extract_contract_data (parseJson : String → Option σ)
    (source_result : ApiResponse (List ContractInfo)) : List String :=
  if source_result.status = "1" then
    match source_result.result with
    | [] => []
    | contract :: _ =>
        match parseJson contract.ABI with
        | some _ => ["full_data", "source_code", "abi"]
        | none => ["full_data", "source_code"]
  else []

/-- Model of `RiseExplorerClient.get_balance_multi`: more than 20 addresses raises
`ValueError("Maximum 20 addresses allowed")` before any request is issued;
otherwise exactly one request is made, whose parameters are returned
(`address` is the comma-joined list). -/
def get_balance_multi (addresses : List String) :
    Except String (List (String × String)) :=
  if addresses.length > 20 then
    Except.error "Maximum 20 addresses allowed"
  else
    Except.ok [("module", "account"), ("action", "balancemulti"),
      ("address", String.intercalate "," addresses)]

/-- A server backed by a fixed list of pages: page `p` (1-based) answers with
status "1" and the `p`-th page's records, and with an empty record list once
the pages run out. Models an underlying source holding finitely many
records. -/
def listServer (pages : List (List α)) (page : Nat) : ApiResponse (List α) :=
  { status := "1", message := "OK", result := pages.getD (page - 1) [] }

/-- If the server answers pages `start, start + 1, ...` with the successive
non-empty record lists of `pages` and then an empty page, and the total fits
strictly under the cap, the loop accumulates every record and requests
exactly the consecutive page numbers up to and including the empty one. -/
theorem pagLoop_pages {α : Type} (cap : Nat) :
    ∀ (pages : List (List α)) (acc : List α) (start : Nat)
      (fetch : Nat → ApiResponse (List α)),
      (∀ pg ∈ pages, pg ≠ []) →
      acc.length + pages.flatten.length < cap →
      (∀ i, i ≤ pages.length →
        (fetch (start + i)).status = "1" ∧ (fetch (start + i)).result = pages.getD i []) →
      pagLoop fetch cap acc start = (acc ++ pages.flatten, List.range' start (pages.length + 1)) := by
  intro pages
  induction pages with
  | nil =>
      intro acc start fetch _ hlt hfetch
      have h0 := hfetch 0 (Nat.zero_le _)
      rw [Nat.add_zero] at h0
      have hcap : acc.length < cap := by simpa using hlt
      rw [pagLoop_stop_empty fetch cap acc start hcap h0.1 h0.2]
      simp [List.range']
  | cons pg rest ih =>
      intro acc start fetch hne hlt hfetch
      have h0 := hfetch 0 (Nat.zero_le _)
      rw [Nat.add_zero] at h0
      have hpg : pg ≠ [] := hne pg (List.mem_cons_self _ _)
      have hjoin : (pg :: rest).flatten = pg ++ rest.flatten := by simp
      have hcap : acc.length < cap := by
        rw [hjoin] at hlt
        simp only [List.length_append] at hlt
        omega
      have hres : ¬ (fetch start).result = [] := by
        rw [h0.2]
        simpa using hpg
      rw [pagLoop_step fetch cap acc start hcap h0.1 hres]
      have hrec := ih (acc ++ (fetch start).result) (start + 1) fetch
        (fun p hp => hne p (List.mem_cons_of_mem _ hp))
        (by
          rw [h0.2]
          simp only [List.getD_cons_zero, List.length_append]
          rw [hjoin] at hlt
          simp only [List.length_append] at hlt
          omega)
        (by
          intro i hi
          have := hfetch (i + 1) (by simpa using hi)
          rw [show start + (i + 1) = start + 1 + i by omega] at this
          simpa using this)
      rw [hrec, h0.2]
      simp only [Prod.mk.injEq]
      refine ⟨by simp, ?_⟩
      simp only [List.length_cons]
      conv_rhs => rw [List.range'_succ]

/-- C1: for every server behaviour and every cap, each of the three
pagination accumulators (transactions in extract_account_data,
extract_token_transfers, extract_token_holders) returns at most `cap`
records: the loop only continues while the count is below the cap, and the
final slice `[:cap]` discards any overshoot from the last page. -/
theorem extract_loops_length_le_cap {α : Type}
    (fetch : Nat → Nat → ApiResponse (List α)) (cap : Nat) :
    (extract_account_data fetch cap).1.length ≤ cap
    ∧ (extract_token_transfers fetch cap).1.length ≤ cap
    ∧ (extract_token_holders fetch cap).1.length ≤ cap := by
  refine ⟨?_, ?_, ?_⟩ <;>
    simp [extract_account_data, extract_token_transfers, extract_token_holders,
      List.length_take]

theorem extract_loops_length_le_cap_witness :
    (extract_token_transfers
        (fun _ _ => { status := "1", message := "OK", result := ([0, 1] : List Nat) }) 3).1.length
      ≤ 3 :=
  (extract_loops_length_le_cap
    (fun _ _ => { status := "1", message := "OK", result := ([0, 1] : List Nat) }) 3).2.1

/-- C3: if the accumulation of extract_token_transfers sees a response with a
non-success status, it stops and returns what was accumulated so far as a
partial result; concretely, a status different from "1" on page 2 yields
exactly the records of page 1 (and pages 1 and 2 are the only requests). -/
theorem accumulate_stops_on_failure_status {α : Type}
    (fetch : Nat → Nat → ApiResponse (List α)) (cap : Nat) (r1 : List α)
    (hs1 : (fetch 1 100).status = "1") (hr1 : (fetch 1 100).result = r1)
    (hne : r1 ≠ []) (hlt : r1.length < cap)
    (hs2 : ¬ (fetch 2 100).status = "1") :
    extract_token_transfers fetch cap = (r1, [1, 2]) := by
  have hcap0 : ([] : List α).length < cap := by
    have := List.length_pos.mpr hne
    simp only [List.length_nil]
    omega
  have hres : ¬ ((fun page => fetch page 100) 1).result = [] := by
    simpa [hr1] using hne
  unfold extract_token_transfers
  rw [pagLoop_step (fun page => fetch page 100) cap [] 1 hcap0 hs1 hres]
  simp only [hr1, List.nil_append]
  rw [pagLoop_stop_status (fun page => fetch page 100) cap r1 2 hlt hs2]
  simp [List.take_of_length_le (Nat.le_of_lt hlt)]

theorem accumulate_stops_on_failure_status_witness :
    extract_token_transfers
        (fun p _ => if p = 1 then { status := "1", message := "OK", result := ([7] : List Nat) }
          else { status := "0", message := "No data found", result := [] }) 5
      = ([7], [1, 2]) :=
  accumulate_stops_on_failure_status
    (fun p _ => if p = 1 then { status := "1", message := "OK", result := ([7] : List Nat) }
      else { status := "0", message := "No data found", result := [] })
    5 [7] rfl rfl (by simp) (by simp) (by simp)

/-- C4: when the underlying source holds finitely many records arranged in
non-empty pages whose total is below the cap (the server answers the page
after the last record with an empty list), extract_account_data returns
exactly those records, and the pages requested are the consecutive numbers
1, 2, ..., k + 1 — one per non-empty page, plus the empty page that ends the
loop, with no request after it. -/
theorem accumulate_consumes_all_pages {α : Type}
    (pages : List (List α)) (cap : Nat)
    (hne : ∀ pg ∈ pages, pg ≠ [])
    (hlt : pages.flatten.length < cap) :
    extract_account_data (fun page _ => listServer pages page) cap
      = (pages.flatten, List.range' 1 (pages.length + 1)) := by
  have hmain := pagLoop_pages cap pages [] 1 (fun page => listServer pages page)
    hne (by simpa using hlt)
    (by
      intro i _
      refine ⟨rfl, ?_⟩
      simp [listServer])
  unfold extract_account_data
  rw [hmain]
  simp [List.take_of_length_le (Nat.le_of_lt hlt)]

theorem accumulate_consumes_all_pages_witness :
    extract_account_data
        (fun page _ => listServer ([[5, 6], [7]] : List (List Nat)) page) 10
      = ([5, 6, 7], [1, 2, 3]) :=
  accumulate_consumes_all_pages [[5, 6], [7]] 10 (by simp) (by simp)

/-- C2: with max_retries = 3, a request whose first two attempts raise
transport errors and whose third succeeds returns the decoded third response
after exactly the two sleeps retry_delay * 1 and retry_delay * 2 (strictly
increasing for a positive retry_delay); a request whose three attempts all
fail performs the same two sleeps and re-raises the third attempt's error,
with no sleep after the final attempt. -/
theorem make_request_retry_schedule {ε ρ : Type} (retry_delay : Int)
    (hd : 0 < retry_delay)
    (att1 att2 : Nat → Except ε (ApiResponse ρ))
    (e0 e1 : ε) (v : ApiResponse ρ) (f0 f1 f2 : ε)
    (h10 : att1 0 = Except.error e0) (h11 : att1 1 = Except.error e1)
    (h12 : att1 2 = Except.ok v)
    (h20 : att2 0 = Except.error f0) (h21 : att2 1 = Except.error f1)
    (h22 : att2 2 = Except.error f2) :
    (_make_request att1 3 retry_delay).outcome = ReqOutcome.ok v
    ∧ (_make_request att1 3 retry_delay).sleeps = [retry_delay * 1, retry_delay * 2]
    ∧ (_make_request att2 3 retry_delay).outcome = ReqOutcome.raised f2
    ∧ (_make_request att2 3 retry_delay).sleeps = [retry_delay * 1, retry_delay * 2]
    ∧ retry_delay * 1 < retry_delay * 2 := by
  have g12 := makeRequestGo_ok att1 3 retry_delay 2 v (by omega) h12
  have g11 := makeRequestGo_error_retry att1 3 retry_delay 1 e1 (by omega) h11
  have g10 := makeRequestGo_error_retry att1 3 retry_delay 0 e0 (by omega) h10
  have g22 := makeRequestGo_error_last att2 3 retry_delay 2 f2 (by omega) (by omega) h22
  have g21 := makeRequestGo_error_retry att2 3 retry_delay 1 f1 (by omega) h21
  have g20 := makeRequestGo_error_retry att2 3 retry_delay 0 f0 (by omega) h20
  refine ⟨?_, ?_, ?_, ?_, by omega⟩ <;>
    simp [_make_request, g10, g11, g12, g20, g21, g22]

theorem make_request_retry_schedule_witness :
    (_make_request
        (fun a => if a = 2 then Except.ok { status := "1", message := "OK", result := (0 : Nat) }
          else Except.error "timeout") 3 1).sleeps = [1 * 1, 1 * 2] :=
  (make_request_retry_schedule 1 (by decide)
    (fun a => if a = 2 then Except.ok { status := "1", message := "OK", result := (0 : Nat) }
      else Except.error "timeout")
    (fun _ => Except.error "timeout")
    "timeout" "timeout" { status := "1", message := "OK", result := (0 : Nat) }
    "timeout" "timeout" "timeout"
    rfl rfl rfl rfl rfl rfl).2.1

/-- C5: whenever the first issued attempt succeeds at the HTTP level,
_make_request returns the decoded body unchanged whatever its embedded
status field, issuing exactly one request, sleeping never and raising
nothing; a body with status "0" additionally produces exactly the logged
API-error warning. -/
theorem make_request_returns_body_unchanged {ε ρ : Type}
    (attempts : Nat → Except ε (ApiResponse ρ)) (max_retries retry_delay : Int)
    (data : ApiResponse ρ)
    (hmr : 1 ≤ max_retries) (h0 : attempts 0 = Except.ok data) :
    _make_request attempts max_retries retry_delay =
      { outcome := ReqOutcome.ok data, sleeps := [], tried := [0],
        logs := if data.status = "0" then [LogEvent.apiError] else [] }
    ∧ (data.status = "0" →
        (_make_request attempts max_retries retry_delay).logs = [LogEvent.apiError]) := by
  have g := makeRequestGo_ok attempts max_retries retry_delay 0 data (by omega) h0
  refine ⟨g, fun hs => ?_⟩
  rw [_make_request, g]
  simp [hs]

theorem make_request_returns_body_unchanged_witness :
    (_make_request
        (fun _ =>
          (Except.ok { status := "0", message := "error!", result := (0 : Nat) } :
            Except String (ApiResponse Nat)))
        3 1).logs
      = [LogEvent.apiError] :=
  (make_request_returns_body_unchanged
    (fun _ => Except.ok { status := "0", message := "error!", result := (0 : Nat) })
    3 1 { status := "0", message := "error!", result := (0 : Nat) }
    (by decide) rfl).2 rfl

theorem makeRequestGo_outcome_ne_fallback {ε ρ : Type}
    (attempts : Nat → Except ε (ApiResponse ρ)) (max_retries retry_delay : Int) :
    ∀ (fuel a : Nat), (max_retries - (a : Int)).toNat ≤ fuel → (a : Int) < max_retries →
      (makeRequestGo attempts max_retries retry_delay a).outcome ≠
        ReqOutcome.maxRetriesExceeded := by
  intro fuel
  induction fuel with
  | zero => intro a hfuel ha; omega
  | succ n ih =>
      intro a hfuel ha
      cases hatt : attempts a with
      | ok data =>
          rw [makeRequestGo_ok attempts max_retries retry_delay a data ha hatt]
          simp
      | error e =>
          by_cases h2 : (a : Int) < max_retries - 1
          · rw [makeRequestGo_error_retry attempts max_retries retry_delay a e h2 hatt]
            exact ih (a + 1) (by omega) (by omega)
          · rw [makeRequestGo_error_last attempts max_retries retry_delay a e ha h2 hatt]
            simp

/-- C9: the defensive trailing raise of
RequestException("Max retries exceeded") fires exactly when the attempt loop
runs zero iterations, i.e. when max_retries ≤ 0, and in that case no HTTP
request is issued at all; for max_retries ≥ 1 every loop iteration either
returns a response or, on the final attempt, re-raises its own error, so the
fallback is unreachable. -/
theorem make_request_fallback_iff_zero_attempts {ε ρ : Type}
    (attempts : Nat → Except ε (ApiResponse ρ)) (max_retries retry_delay : Int) :
    ((_make_request attempts max_retries retry_delay).outcome =
        ReqOutcome.maxRetriesExceeded ↔ max_retries ≤ 0)
    ∧ (max_retries ≤ 0 → (_make_request attempts max_retries retry_delay).tried = []) := by
  by_cases hmr : max_retries ≤ 0
  · have g := makeRequestGo_stop attempts max_retries retry_delay 0 (by omega)
    rw [_make_request, g]
    simp [hmr]
  · have hne := makeRequestGo_outcome_ne_fallback attempts max_retries retry_delay
      (max_retries - 0).toNat 0 (by omega) (by omega)
    rw [_make_request]
    constructor
    · constructor
      · intro h; exact absurd h hne
      · intro h; omega
    · intro h; omega

theorem make_request_fallback_iff_zero_attempts_witness :
    (_make_request (fun _ => (Except.error "unused" : Except String (ApiResponse Nat)))
        (-1) 1).tried = [] :=
  (make_request_fallback_iff_zero_attempts
    (fun _ => (Except.error "unused" : Except String (ApiResponse Nat))) (-1) 1).2
    (by decide)

theorem blockRangeLoop_eq_filter_map {ρ : Type} (fetch : Nat → ApiResponse ρ)
    (l : List Nat) :
    blockRangeLoop fetch l =
      (l.filter (fun b => (fetch b).status == "1")).map (fun b => (fetch b).result) := by
  induction l with
  | nil => rfl
  | cons b rest ih =>
      by_cases hb : (fetch b).status = "1" <;>
        simp [blockRangeLoop, List.filter_cons, hb, ih]

/-- C6: extract_block_range issues one block-reward request per block number,
iterating them in ascending order from start_block through end_block
inclusive, and the resulting block list is exactly the result fields of the
success-status responses in that order, failure-status blocks being silently
skipped; in particular, blocks 100..102 with block 101 reporting failure
yield the two-element list for blocks 100 and 102. -/
theorem extract_block_range_filters_success :
    (∀ (ρ : Type) (fetch : Nat → ApiResponse ρ) (start_block end_block : Nat),
      extract_block_range fetch start_block end_block =
        ((List.range' start_block (end_block + 1 - start_block)).filter
            (fun b => (fetch b).status == "1")).map (fun b => (fetch b).result)
      ∧ (∀ b, b ∈ List.range' start_block (end_block + 1 - start_block) ↔
          start_block ≤ b ∧ b ≤ end_block))
    ∧ extract_block_range
        (fun b => if b = 101 then { status := "0", message := "Error", result := b }
          else { status := "1", message := "OK", result := b }) 100 102 = [100, 102] := by
  constructor
  · intro ρ fetch start_block end_block
    refine ⟨blockRangeLoop_eq_filter_map fetch _, ?_⟩
    intro b
    rw [List.mem_range']
    constructor
    · rintro ⟨i, hi, rfl⟩; omega
    · intro hb; exact ⟨b - start_block, by omega, by omega⟩
  · simp [extract_block_range, List.range', blockRangeLoop]

/-- Membership in the key set accumulated by the `keys.update(record.keys())`
loop of `_save_csv`, for an arbitrary initial key set. -/
theorem mem_foldl_save_csv_keys (data : List (List (String × String))) :
    ∀ (init : Finset String) (k : String),
      (k ∈ data.foldl (fun ks record => ks ∪ (record.map Prod.fst).toFinset) init ↔
        k ∈ init ∨ ∃ r ∈ data, k ∈ r.map Prod.fst) := by
  induction data with
  | nil => intro init k; simp
  | cons r rest ih =>
      intro init k
      rw [List.foldl_cons, ih]
      simp only [Finset.mem_union, List.mem_toFinset, List.mem_cons]
      constructor
      · rintro (⟨hk | hk⟩ | ⟨q, hq, hk⟩)
        · exact Or.inl hk
        · exact Or.inr ⟨r, Or.inl rfl, hk⟩
        · exact Or.inr ⟨q, Or.inr hq, hk⟩
      · rintro (hk | ⟨q, hq | hq, hk⟩)
        · exact Or.inl (Or.inl hk)
        · exact Or.inl (Or.inr (hq ▸ hk))
        · exact Or.inr ⟨q, hq, hk⟩

theorem lookup_eq_none_of_not_mem_keys (record : List (String × String))
    (k : String) (h : ¬ k ∈ record.map Prod.fst) : record.lookup k = none := by
  rw [List.lookup_eq_none_iff]
  intro p hp
  simp only [List.mem_map] at h
  have : ¬ k = p.1 := fun he => h ⟨p, hp, he.symm⟩
  simpa using this

/-- C7: for a non-empty record list with possibly heterogeneous key sets,
the CSV header used by `_save_csv` is exactly the sorted, duplicate-free
union of the keys of all records, and in any rendered row a record that
lacks the key of some column yields the empty cell in that column. -/
theorem save_csv_header_sorted_union (data : List (List (String × String)))
    (hne : data ≠ []) :
    List.Sorted (· ≤ ·) (save_csv_fieldnames data)
    ∧ (save_csv_fieldnames data).Nodup
    ∧ (∀ k, k ∈ save_csv_fieldnames data ↔ ∃ r ∈ data, k ∈ r.map Prod.fst)
    ∧ (∀ (record : List (String × String)) (i : Nat) (k : String),
        (save_csv_fieldnames data)[i]? = some k → ¬ k ∈ record.map Prod.fst →
        (save_csv_row (save_csv_fieldnames data) record)[i]? = some "") := by
  refine ⟨Finset.sort_sorted _ _, Finset.sort_nodup _ _, ?_, ?_⟩
  · intro k
    rw [save_csv_fieldnames, Finset.mem_sort, save_csv_keys,
      mem_foldl_save_csv_keys data ∅ k]
    simp
  · intro record i k hk hmem
    rw [save_csv_row, List.getElem?_map, hk]
    simp [lookup_eq_none_of_not_mem_keys record k hmem]

theorem save_csv_header_sorted_union_witness :
    "b" ∈ save_csv_fieldnames [[("a", "1"), ("b", "2")], [("a", "3"), ("c", "4")]]
    ∧ ¬ "d" ∈ save_csv_fieldnames [[("a", "1"), ("b", "2")], [("a", "3"), ("c", "4")]] :=
  ⟨((save_csv_header_sorted_union [[("a", "1"), ("b", "2")], [("a", "3"), ("c", "4")]]
      (by simp)).2.2.1 "b").mpr ⟨[("a", "1"), ("b", "2")], by simp, by simp⟩,
    fun hd => by
      have := ((save_csv_header_sorted_union
        [[("a", "1"), ("b", "2")], [("a", "3"), ("c", "4")]] (by simp)).2.2.1 "d").mp hd
      simp at this⟩

/-- C8: when the contract's ABI field is not valid JSON text (json.loads
raises, modelled by `parseJson` returning none), the decode error is handled
locally: the returned file map still contains the full-data JSON file and
the source-code file, and simply omits the ABI file — the extraction never
fails as a whole. -/
theorem extract_contract_data_abi_skip {σ : Type} (parseJson : String → Option σ)
    (source_result : ApiResponse (List ContractInfo))
    (contract : ContractInfo) (rest : List ContractInfo)
    (hs : source_result.status = "1")
    (hres : source_result.result = contract :: rest)
    (habi : parseJson contract.ABI = none) :
    extract_contract_data parseJson source_result = ["full_data", "source_code"]
    ∧ "full_data" ∈ extract_contract_data parseJson source_result
    ∧ "source_code" ∈ extract_contract_data parseJson source_result
    ∧ ¬ "abi" ∈ extract_contract_data parseJson source_result := by
  have he : extract_contract_data parseJson source_result
      = ["full_data", "source_code"] := by
    rw [extract_contract_data, if_pos hs, hres]
    simp [habi]
  refine ⟨he, ?_, ?_, ?_⟩ <;> rw [he] <;> simp

theorem extract_contract_data_abi_skip_witness :
    extract_contract_data (fun _ => (none : Option Unit))
        { status := "1", message := "OK",
          result := [{ SourceCode := "contract C ...", ABI := "not json" }] }
      = ["full_data", "source_code"] :=
  (extract_contract_data_abi_skip (fun _ => (none : Option Unit))
    { status := "1", message := "OK",
      result := [{ SourceCode := "contract C ...", ABI := "not json" }] }
    { SourceCode := "contract C ...", ABI := "not json" } []
    rfl rfl rfl).1

/-- C10: get_balance_multi raises ValueError("Maximum 20 addresses allowed")
for more than 20 addresses, issuing no request; for at most 20 addresses it
raises nothing and issues exactly one request whose address parameter is the
comma-joined address list. -/
theorem get_balance_multi_limit (addresses : List String) :
    (addresses.length > 20 →
      get_balance_multi addresses = Except.error "Maximum 20 addresses allowed")
    ∧ (addresses.length ≤ 20 →
      get_balance_multi addresses =
        Except.ok [("module", "account"), ("action", "balancemulti"),
          ("address", String.intercalate "," addresses)]) := by
  constructor
  · intro h
    rw [get_balance_multi, if_pos h]
  · intro h
    rw [get_balance_multi, if_neg (by omega)]

theorem get_balance_multi_limit_witness :
    get_balance_multi ["0xa", "0xb"] =
      Except.ok [("module", "account"), ("action", "balancemulti"),
        ("address", String.intercalate "," ["0xa", "0xb"])] :=
  (get_balance_multi_limit ["0xa", "0xb"]).2 (by decide)

end RisePipeline
